import Mathlib

/-!
Verification of the CodeForesight repository demo program (src/demo_vuln.c).

The source file holds two variants of the same C program: a vulnerable
variant and a Stage-1-fixed variant.  Both are embedded below, buffers as
`List Char`, C ints as `Int` wrapped to the signed 32-bit range where
overflow matters, and the bounds-unchecked libc copies as `Option`-valued
writes so that an out-of-bounds write is an observable `none`.
-/

set_option maxHeartbeats 1000000
set_option maxRecDepth 4000

/-- The C NUL byte. -/
def NUL : Char := Char.ofNat 0

/-- The single-quote character (byte 39), kept out of string literals. -/
def squote : Char := Char.ofNat 39

/-- Reading a C buffer as a C string: its bytes up to the first NUL. -/
def cstr (buf : List Char) : List Char :=
  buf.takeWhile (fun c => decide (c ≠ NUL))

/-- Wrap an integer into the signed 32-bit range, the behaviour of C `int`
overflow on the demo's target. -/
def toInt32 (n : Int) : Int := (n + 2 ^ 31) % 2 ^ 32 - 2 ^ 31

/-- libc `strncpy(dst, src, n)`: copies at most `n` characters of `src`,
padding with NUL when `src` is shorter than `n`; bytes of `dst` from
position `n` on are unchanged.  (Callers pass `n ≤ dst.length`.) -/
def strncpyList : List Char → List Char → Nat → List Char
  | dst, _, 0 => dst
  | [], _, _ + 1 => []
  | _ :: ds, [], n + 1 => NUL :: strncpyList ds [] n
  | _ :: ds, s :: ss, n + 1 => s :: strncpyList ds ss n

/-- Byte-by-byte write of `bytes` into `dst` starting at index `i`, with an
explicit bounds check: a write past the end of `dst` returns `none`.  This is
the total embedding of an unchecked C memory write. -/
def writeBytes : List Char → Nat → List Char → Option (List Char)
  | dst, _, [] => some dst
  | dst, i, b :: bs =>
    if i < dst.length then writeBytes (dst.set i b) (i + 1) bs else none

/-- libc `strcpy(dst, src)`: writes every character of `src` and the
terminating NUL, with no bound from `dst`. -/
def strcpyChecked (dst src : List Char) : Option (List Char) :=
  writeBytes dst 0 (src ++ [NUL])

/-- libc `memcpy(dst, src, n)` on character data: writes the first `n` bytes
of `src`, with no bound from `dst`. -/
def memcpyChecked (dst src : List Char) (n : Nat) : Option (List Char) :=
  writeBytes dst 0 (src.take n)

/-- C `sprintf` restricted to format strings whose only directive is `%s`:
scans the format and replaces the first `%s` by the argument string. -/
def sprintfS : List Char → List Char → List Char
  | [], _ => []
  | [c], _ => [c]
  | c :: c2 :: rest, arg =>
    if c = '%' ∧ c2 = 's' then arg ++ rest
    else c :: sprintfS (c2 :: rest) arg

/-- The format string of the vulnerable `build_query`:
`SELECT * FROM users WHERE name = <quote>%s<quote>`. -/
def queryFormat : List Char :=
  ("SELECT * FROM users WHERE name = ").toList ++ [squote, '%', 's', squote]

namespace Vuln

/-- `safe_copy` of the vulnerable variant (demo_vuln.c lines 24-30): returns
immediately when `dst_size` is 0, otherwise `strncpy`s at most
`dst_size - 1` characters and NUL-terminates at index `dst_size - 1`. -/
def safe_copy (dst src : List Char) (dst_size : Nat) : List Char :=
  if dst_size = 0 then dst
  else (strncpyList dst src (dst_size - 1)).set (dst_size - 1) NUL

/-- `compute_score` (lines 54-60): `(a*3) + (b*2) - (a/2)` in wrapping
32-bit int arithmetic with C truncating division, clamped to 0 from below. -/
def compute_score (a b : Int) : Int :=
  let a32 := toInt32 a
  let b32 := toInt32 b
  let score := toInt32 (toInt32 (toInt32 (a32 * 3) + toInt32 (b32 * 2)) - Int.tdiv a32 2)
  if score < 0 then 0 else score

/-- `build_query` (lines 62-65): `out_size` is voided and `sprintf`
interpolates `user_input` into the query format unescaped; the result is the
string written over `out`. -/
def build_query (out : List Char) (out_size : Nat) (user_input : List Char) : List Char :=
  sprintfS queryFormat user_input

/-- `copy_untrusted` (lines 73-75): a bare `strcpy` of `src` into `dst`. -/
def copy_untrusted (dst src : List Char) : Option (List Char) :=
  strcpyChecked dst src

/-- `copy_untrusted_bytes` (lines 77-79): `memcpy` of `strlen(src)` bytes of
`src` into `dst`; for a NUL-free `src : List Char`, `strlen` is its length. -/
def copy_untrusted_bytes (dst src : List Char) : Option (List Char) :=
  memcpyChecked dst src src.length

/-- The two copies `handle_request` (lines 95-107) performs into its 8-byte
local `small_buf`: `copy_untrusted` then `copy_untrusted_bytes`, both sized
only by `user_input`.  `none` when either write is out of bounds. -/
def handle_request_copies (small_buf user_input : List Char) : Option (List Char) :=
  (copy_untrusted small_buf user_input).bind
    (fun b => copy_untrusted_bytes b user_input)

/-- `apply_coupon_after_checkout` (lines 141-150): starts from total 100,
zeroes it when `paid` is truthy, then subtracts 100 when `coupon_applied`
is truthy. -/
def apply_coupon_after_checkout (paid coupon_applied : Int) : Int :=
  let total : Int := 100
  let total := if paid ≠ 0 then 0 else total
  let total := if coupon_applied ≠ 0 then total - 100 else total
  total

/-- `view_admin_report` (lines 153-157): voids `is_admin` and
unconditionally prints the admin report line; the result is the printed
output. -/
def view_admin_report (is_admin : Int) : String :=
  "Admin report: all user emails...\n"

end Vuln

namespace Fixed

/-- `safe_copy` of the Stage-1-fixed variant (lines 217-223), identical to
the vulnerable variant's. -/
def safe_copy (dst src : List Char) (dst_size : Nat) : List Char :=
  if dst_size = 0 then dst
  else (strncpyList dst src (dst_size - 1)).set (dst_size - 1) NUL

/-- `compute_score` of the fixed variant (lines 235-241), identical to the
vulnerable variant's. -/
def compute_score (a b : Int) : Int :=
  let a32 := toInt32 a
  let b32 := toInt32 b
  let score := toInt32 (toInt32 (toInt32 (a32 * 3) + toInt32 (b32 * 2)) - Int.tdiv a32 2)
  if score < 0 then 0 else score

/-- `build_query` of the fixed variant (lines 243-246): copies a static
query text into `out` with `safe_copy`; no user input. -/
def build_query (out : List Char) (out_size : Nat) : List Char :=
  safe_copy out ("SELECT * FROM users WHERE active = 1").toList out_size

/-- `render_html` of the fixed variant (lines 248-251): copies static HTML
into `out` with `safe_copy`; no user input. -/
def render_html (out : List Char) (out_size : Nat) : List Char :=
  safe_copy out ("<div>Welcome</div>").toList out_size

/-- `handle_request` of the fixed variant (lines 267-277): voids
`user_input`, fills its 256-byte local `query` and `html` buffers (passed
here as `qbuf` and `hbuf`, stack contents arbitrary) with the static texts,
and prints their C-string contents, returned as the pair. -/
def handle_request (user_input qbuf hbuf : List Char) : List Char × List Char :=
  (cstr (build_query qbuf 256), cstr (render_html hbuf 256))

/-- `apply_coupon_after_checkout` of the fixed variant (lines 306-315),
intentionally left identical to the vulnerable variant's. -/
def apply_coupon_after_checkout (paid coupon_applied : Int) : Int :=
  let total : Int := 100
  let total := if paid ≠ 0 then 0 else total
  let total := if coupon_applied ≠ 0 then total - 100 else total
  total

/-- `view_admin_report` of the fixed variant (lines 318-321), intentionally
left identical to the vulnerable variant's. -/
def view_admin_report (is_admin : Int) : String :=
  "Admin report: all user emails...\n"

end Fixed

/-!
The CodeForesight pipeline itself (Stage 1 detector, Stage 2 detector and
the Gate Orchestrator) is not part of the repository sources available
here; the definitions below are modelled from the specification (spec
sections 3, 4.2, 4.3, 4.5 and 7) to state the pipeline-level claims.
-/

/-- Modelled from the spec: the verdict of a `StageReport`
(`pass`, `block`, `indeterminate`, `skipped`). -/
inductive Verdict
  | pass
  | block
  | indeterminate
  | skipped
deriving DecidableEq

/-- Modelled from the spec: a `Finding` — id, stage, category, location
(line range) and confidence. -/
structure Finding where
  id : Nat
  stage : Nat
  category : Nat
  line_start : Nat
  line_end : Nat
  confidence : Int
deriving DecidableEq

/-- Modelled from the spec: a `StageReport` — the ordered findings of one
stage and its verdict. -/
structure StageReport where
  findings : List Finding
  verdict : Verdict
deriving DecidableEq

/-- Modelled from the spec: a `GateDecision` — per-stage reports plus one
overall verdict, the terminal output of the pipeline. -/
structure GateDecision where
  stage1 : StageReport
  stage2 : StageReport
  stage3 : StageReport
  overall : Verdict
deriving DecidableEq

/-- Modelled from the spec: a `Snippet` — a line range with extracted
text, the per-unit input of the detectors. -/
structure Snippet where
  line_start : Nat
  line_end : Nat
  text : List Char

/-- Modelled from the spec: a `DetectionRule` — id, target category, a
matcher over snippets, and the fixed baseline confidence its findings
carry. -/
structure DetectionRule where
  id : Nat
  category : Nat
  matcher : Snippet → Bool
  baseConfidence : Int

/-- Modelled from the spec: the location-then-category order on findings
used to sort a `StageReport` for determinism. -/
def locCatLE (f g : Finding) : Prop :=
  f.line_start < g.line_start ∨
    (f.line_start = g.line_start ∧
      (f.line_end < g.line_end ∨
        (f.line_end = g.line_end ∧ f.category ≤ g.category)))

instance : DecidableRel locCatLE := fun f g => by
  unfold locCatLE; exact inferInstance

instance : IsTotal Finding locCatLE :=
  ⟨by intro a b; unfold locCatLE; omega⟩

instance : IsTrans Finding locCatLE :=
  ⟨by intro a b c; unfold locCatLE; omega⟩

/-- Modelled from the spec: stable sorting of findings by location then
category. -/
def sortFindings (fs : List Finding) : List Finding :=
  List.insertionSort locCatLE fs

/-- Two findings agree on (location, category). -/
def sameLocCat (f g : Finding) : Bool :=
  decide (f.line_start = g.line_start ∧ f.line_end = g.line_end ∧
    f.category = g.category)

/-- Modelled from the spec: the merge policy on overlapping rule and
classifier findings — when two findings agree on (location, category),
keep the higher-confidence one. -/
def mergeFindings (fs : List Finding) : List Finding :=
  fs.foldl
    (fun acc f =>
      if acc.any (fun g => sameLocCat g f && decide (f.confidence ≤ g.confidence)) then acc
      else acc.filter (fun g => !sameLocCat g f) ++ [f])
    []

/-- Modelled from the spec: fresh per-run finding ids, assigned from a
run-private counter in emission order. -/
def assignIds (fs : List Finding) : List Finding :=
  fs.enum.map (fun p => { p.2 with id := p.1 })

/-- Modelled from the spec: the Stage 1 detector, absent from the
available sources — deterministic rule matching plus classifier scores
kept above the acceptance threshold `tau_keep`, merged per
(location, category) and sorted by location then category. -/
def stage1Findings (rules : List DetectionRule)
    (classify : Snippet → List (Nat × Int)) (tau_keep : Int)
    (snips : List Snippet) : List Finding :=
  let ruleFs := (snips.map (fun s =>
    (rules.filter (fun r => r.matcher s)).map (fun r =>
      { id := 0, stage := 1, category := r.category,
        line_start := s.line_start, line_end := s.line_end,
        confidence := r.baseConfidence : Finding }))).flatten
  let clsFs := (snips.map (fun s =>
    ((classify s).filter (fun p => decide (tau_keep ≤ p.2))).map (fun p =>
      { id := 0, stage := 1, category := p.1,
        line_start := s.line_start, line_end := s.line_end,
        confidence := p.2 : Finding }))).flatten
  sortFindings (mergeFindings (assignIds (ruleFs ++ clsFs)))

/-- Modelled from the spec: the error cases of the Reasoning Client
interface — timeout, authentication failure, rate limiting. -/
inductive ReasoningServiceError
  | timeout
  | auth
  | rate_limit
deriving DecidableEq

/-- Modelled from the spec: the bounded-retry loop around the Reasoning
Client, absent from the available sources — attempt `i` is `call i`; the
first success wins, and when the whole retry budget fails the last error
is returned. -/
def attemptWithRetries (call : Nat → Except ReasoningServiceError (List Finding)) :
    Nat → Except ReasoningServiceError (List Finding)
  | 0 => call 0
  | n + 1 =>
    match attemptWithRetries call n with
    | Except.ok r => Except.ok r
    | Except.error _ => call (n + 1)

/-- Modelled from the spec: the Stage 2 detector's report, absent from the
available sources — on a Reasoning Client success its findings gate the
verdict; on failure after the retries are exhausted the verdict is
`indeterminate`, never `pass`. -/
def stage2Report (retries : Nat)
    (call : Nat → Except ReasoningServiceError (List Finding)) : StageReport :=
  match attemptWithRetries call retries with
  | Except.ok fs =>
    { findings := sortFindings fs,
      verdict := if fs.isEmpty then Verdict.pass else Verdict.block }
  | Except.error _ => { findings := [], verdict := Verdict.indeterminate }

/-- A stage marked `skipped` in the report. -/
def skippedReport : StageReport := { findings := [], verdict := Verdict.skipped }

/-- Modelled from the spec: the Gate Orchestrator, absent from the
available sources — Stage 1 block ends the run, otherwise Stage 2 runs
(its indeterminate outcome does not stop Stage 3), and the per-stage
reports are aggregated into one complete `GateDecision`. -/
def runPipeline (s1 : StageReport) (retries : Nat)
    (call : Nat → Except ReasoningServiceError (List Finding))
    (s3 : StageReport) : GateDecision :=
  if s1.verdict = Verdict.block then
    { stage1 := s1, stage2 := skippedReport, stage3 := skippedReport,
      overall := Verdict.block }
  else
    let s2 := stage2Report retries call
    if s2.verdict = Verdict.block then
      { stage1 := s1, stage2 := s2, stage3 := skippedReport,
        overall := Verdict.block }
    else
      { stage1 := s1, stage2 := s2, stage3 := s3, overall := Verdict.pass }

/-! ### Supporting lemmas -/

lemma writeBytes_none (bytes : List Char) :
    ∀ (dst : List Char) (i : Nat), bytes ≠ [] → dst.length < i + bytes.length →
      writeBytes dst i bytes = none := by
  induction bytes with
  | nil => intro dst i h _; exact absurd rfl h
  | cons b bs ih =>
    intro dst i _ hlt
    by_cases hi : i < dst.length
    · cases bs with
      | nil =>
        simp only [List.length_cons, List.length_nil] at hlt
        omega
      | cons c cs =>
        rw [writeBytes, if_pos hi]
        apply ih _ _ (by simp)
        rw [List.length_set]
        simp only [List.length_cons] at hlt ⊢
        omega
    · rw [writeBytes, if_neg hi]

lemma strncpyList_length : ∀ (dst src : List Char) (n : Nat),
    (strncpyList dst src n).length = dst.length := by
  intro dst
  induction dst with
  | nil => intro src n; cases n <;> cases src <;> simp [strncpyList]
  | cons d ds ih =>
    intro src n
    cases n with
    | zero => simp [strncpyList]
    | succ m =>
      cases src with
      | nil => simp [strncpyList, ih]
      | cons s ss => simp [strncpyList, ih]

lemma strncpyList_eq_of_le : ∀ (dst src : List Char) (n : Nat),
    src.length ≤ n → n ≤ dst.length →
    strncpyList dst src n =
      src ++ List.replicate (n - src.length) NUL ++ dst.drop n := by
  intro dst
  induction dst with
  | nil =>
    intro src n hs hn
    simp only [List.length_nil, Nat.le_zero] at hn
    subst hn
    simp only [Nat.le_zero, List.length_eq_zero] at hs
    subst hs
    simp [strncpyList]
  | cons d ds ih =>
    intro src n hs hn
    cases n with
    | zero =>
      simp only [Nat.le_zero, List.length_eq_zero] at hs
      subst hs
      simp [strncpyList]
    | succ m =>
      cases src with
      | nil =>
        rw [strncpyList, ih [] m (by simp) (by simpa using hn)]
        simp [List.replicate_succ]
      | cons s ss =>
        rw [strncpyList, ih ss m (by simpa using hs) (by simpa using hn)]
        simp only [List.length_cons, List.cons_append, List.drop_succ_cons,
          Nat.succ_sub_succ]

lemma getD_set_self : ∀ (l : List Char) (i : Nat) (a d : Char), i < l.length →
    (l.set i a).getD i d = a := by
  intro l
  induction l with
  | nil => intro i a d h; simp at h
  | cons x xs ih =>
    intro i a d h
    cases i with
    | zero => simp
    | succ j =>
      simp only [List.set_cons_succ, List.getD_cons_succ]
      exact ih j a d (by simpa using h)

lemma takeWhile_length_le_of_getD (p : Char → Bool) :
    ∀ (l : List Char) (i : Nat), i < l.length → p (l.getD i NUL) = false →
      (l.takeWhile p).length ≤ i := by
  intro l
  induction l with
  | nil => intro i h _; simp at h
  | cons x xs ih =>
    intro i h hp
    cases i with
    | zero =>
      simp only [List.getD_cons_zero] at hp
      rw [List.takeWhile_cons_of_neg (by simp [hp])]
      simp
    | succ j =>
      rw [List.takeWhile_cons]
      by_cases hx : p x = true
      · rw [if_pos hx]
        have := ih j (by simpa using h) (by simpa using hp)
        simp only [List.length_cons]
        omega
      · rw [if_neg hx]
        simp

lemma cstr_append_of_no_nul (s t : List Char) (h : NUL ∉ s) :
    cstr (s ++ t) = s ++ cstr t := by
  unfold cstr
  rw [List.takeWhile_append, if_pos]
  rw [List.takeWhile_eq_self_iff.mpr]
  intro x hx
  simp only [decide_eq_true_eq]
  exact fun he => h (he ▸ hx)

lemma cstr_nul_cons (t : List Char) : cstr (NUL :: t) = [] := by
  unfold cstr
  rw [List.takeWhile_cons_of_neg]
  simp

lemma cstr_replicate_nul_cons (k : Nat) (t : List Char) :
    cstr (List.replicate k NUL ++ NUL :: t) = [] := by
  cases k with
  | zero => simpa using cstr_nul_cons t
  | succ j =>
    rw [List.replicate_succ, List.cons_append]
    exact cstr_nul_cons _

lemma fixed_safe_copy_eq : Fixed.safe_copy = Vuln.safe_copy := rfl

lemma safe_copy_length (dst src : List Char) (n : Nat) :
    (Vuln.safe_copy dst src n).length = dst.length := by
  unfold Vuln.safe_copy
  by_cases h : n = 0
  · rw [if_pos h]
  · rw [if_neg h, List.length_set, strncpyList_length]

lemma safe_copy_getD_last (dst src : List Char) (n : Nat) (h0 : 0 < n)
    (hn : n ≤ dst.length) :
    (Vuln.safe_copy dst src n).getD (n - 1) NUL = NUL := by
  unfold Vuln.safe_copy
  rw [if_neg (by omega)]
  exact getD_set_self _ _ _ _ (by rw [strncpyList_length]; omega)

lemma safe_copy_cstr_length (dst src : List Char) (n : Nat) (h0 : 0 < n)
    (hn : n ≤ dst.length) :
    (cstr (Vuln.safe_copy dst src n)).length ≤ n - 1 := by
  apply takeWhile_length_le_of_getD
  · rw [safe_copy_length]; omega
  · rw [safe_copy_getD_last dst src n h0 hn]
    simp

lemma safe_copy_cstr (dst src : List Char) (n : Nat) (h0 : 0 < n)
    (hn : n ≤ dst.length) (hs : src.length < n) (hnul : NUL ∉ src) :
    cstr (Vuln.safe_copy dst src n) = src := by
  unfold Vuln.safe_copy
  rw [if_neg (by omega)]
  obtain ⟨m, rfl⟩ : ∃ m, n = m + 1 := ⟨n - 1, by omega⟩
  simp only [Nat.add_sub_cancel]
  rw [strncpyList_eq_of_le dst src m (by omega) (by omega)]
  rw [List.set_append, if_neg (by simp; omega)]
  have hz : m - (src ++ List.replicate (m - src.length) NUL).length = 0 := by
    simp only [List.length_append, List.length_replicate]
    omega
  rw [hz, List.drop_eq_getElem_cons (by omega : m < dst.length),
    List.set_cons_zero, List.append_assoc]
  rw [cstr_append_of_no_nul _ _ hnul, cstr_replicate_nul_cons]
  simp

lemma sprintfS_pct (rest arg : List Char) :
    sprintfS ('%' :: 's' :: rest) arg = arg ++ rest := by
  rw [sprintfS, if_pos ⟨rfl, rfl⟩]

lemma sprintfS_no_pct (arg : List Char) :
    ∀ (hs rest : List Char), (∀ c ∈ hs, c ≠ '%') →
      sprintfS (hs ++ '%' :: 's' :: rest) arg = hs ++ (arg ++ rest) := by
  intro hs
  induction hs with
  | nil =>
    intro rest _
    simpa using sprintfS_pct rest arg
  | cons c hs2 ih =>
    intro rest hns
    have hc : c ≠ '%' := hns c (by simp)
    have step : sprintfS (c :: (hs2 ++ '%' :: 's' :: rest)) arg
        = c :: sprintfS (hs2 ++ '%' :: 's' :: rest) arg := by
      cases hs2 with
      | nil =>
        rw [List.nil_append, sprintfS, if_neg (fun h => hc h.1)]
      | cons c2 hs3 =>
        rw [List.cons_append, sprintfS, if_neg (fun h => hc h.1)]
    simp only [List.cons_append]
    rw [step, ih rest (fun x hx => hns x (by simp [hx]))]

lemma attemptWithRetries_error
    (call : Nat → Except ReasoningServiceError (List Finding))
    (hfail : ∀ i, ∃ e, call i = Except.error e) :
    ∀ n, ∃ e, attemptWithRetries call n = Except.error e := by
  intro n
  induction n with
  | zero => exact hfail 0
  | succ m ih =>
    obtain ⟨e, he⟩ := ih
    rw [attemptWithRetries, he]
    exact hfail (m + 1)

/-! ### Claim theorems -/

/-- C1: in the vulnerable variant, `handle_request` copies `user_input` into
its 8-byte local `small_buf` via `copy_untrusted` (a bare strcpy) and
`copy_untrusted_bytes` (memcpy sized by the source length), with no bound
from the destination: for every `user_input` of length at least 8 the copy
writes past the end of `small_buf` — in the total embedding with
bounds-checked writes, the out-of-bounds `none` branch of these copies is
reached. -/
theorem C1_handle_request_overflow (small_buf user_input : List Char)
    (hb : small_buf.length = 8) (hu : 8 ≤ user_input.length) :
    Vuln.copy_untrusted small_buf user_input = none ∧
    Vuln.handle_request_copies small_buf user_input = none := by
  have h1 : Vuln.copy_untrusted small_buf user_input = none := by
    unfold Vuln.copy_untrusted strcpyChecked
    apply writeBytes_none _ _ _ (by simp)
    rw [hb, List.length_append, List.length_cons, List.length_nil]
    omega
  refine ⟨h1, ?_⟩
  unfold Vuln.handle_request_copies
  rw [h1]
  rfl

/-- Witness for C1: an 8-byte buffer and the 8-character input abcdefgh. -/
theorem C1_handle_request_overflow_witness :
    (List.replicate 8 NUL).length = 8 ∧ 8 ≤ ("abcdefgh").toList.length ∧
    Vuln.copy_untrusted (List.replicate 8 NUL) ("abcdefgh").toList = none ∧
    Vuln.handle_request_copies (List.replicate 8 NUL) ("abcdefgh").toList = none := by
  refine ⟨by decide, by decide, ?_⟩
  have := C1_handle_request_overflow (List.replicate 8 NUL) ("abcdefgh").toList
    (by decide) (by decide)
  exact this

/-- C2: `apply_coupon_after_checkout` called with `paid = 1` and
`coupon_applied = 1` returns the negative total -100, in both the
vulnerable and the Stage-1-fixed variant. -/
theorem C2_apply_coupon_negative :
    Vuln.apply_coupon_after_checkout 1 1 = -100 ∧
    Fixed.apply_coupon_after_checkout 1 1 = -100 ∧
    Vuln.apply_coupon_after_checkout 1 1 < 0 := by
  refine ⟨?_, ?_, ?_⟩ <;> decide

/-- C3: in the vulnerable variant, `build_query` writes exactly
`SELECT * FROM users WHERE name = <quote>` followed by `user_input`
followed by `<quote>`, for every `user_input`, inserted verbatim and
unescaped. -/
theorem C3_build_query_interpolates (out : List Char) (out_size : Nat)
    (user_input : List Char) :
    Vuln.build_query out out_size user_input =
      ("SELECT * FROM users WHERE name = ").toList ++ [squote] ++
        user_input ++ [squote] := by
  unfold Vuln.build_query
  have hfmt : queryFormat =
      (("SELECT * FROM users WHERE name = ").toList ++ [squote]) ++
        '%' :: 's' :: [squote] := by
    unfold queryFormat
    simp
  rw [hfmt, sprintfS_no_pct user_input _ _ (by decide)]
  simp

/-- C4: in the Stage-1-fixed variant, the query and HTML output of
`handle_request` do not depend on `user_input`: any two inputs produce
identical buffers, the query always being the static text
`SELECT * FROM users WHERE active = 1` and the html always
`<div>Welcome</div>`. -/
theorem C4_handle_request_fixed_noninterference
    (u1 u2 qbuf hbuf : List Char) (hq : qbuf.length = 256)
    (hh : hbuf.length = 256) :
    Fixed.handle_request u1 qbuf hbuf = Fixed.handle_request u2 qbuf hbuf ∧
    (Fixed.handle_request u1 qbuf hbuf).1 =
      ("SELECT * FROM users WHERE active = 1").toList ∧
    (Fixed.handle_request u1 qbuf hbuf).2 = ("<div>Welcome</div>").toList := by
  refine ⟨rfl, ?_, ?_⟩
  · show cstr (Fixed.build_query qbuf 256) = _
    unfold Fixed.build_query
    rw [fixed_safe_copy_eq]
    exact safe_copy_cstr _ _ _ (by omega) (by omega) (by decide) (by decide)
  · show cstr (Fixed.render_html hbuf 256) = _
    unfold Fixed.render_html
    rw [fixed_safe_copy_eq]
    exact safe_copy_cstr _ _ _ (by omega) (by omega) (by decide) (by decide)

/-- Witness for C4: two distinct inputs and 256-byte stack buffers. -/
theorem C4_handle_request_fixed_noninterference_witness :
    (List.replicate 256 'x').length = 256 ∧
    Fixed.handle_request ("a").toList (List.replicate 256 'x')
        (List.replicate 256 'y') =
      Fixed.handle_request ("bb").toList (List.replicate 256 'x')
        (List.replicate 256 'y') := by
  refine ⟨by rw [List.length_replicate], ?_⟩
  exact (C4_handle_request_fixed_noninterference ("a").toList ("bb").toList
    (List.replicate 256 'x') (List.replicate 256 'y')
    (by rw [List.length_replicate]) (by rw [List.length_replicate])).1

/-- C5: `view_admin_report` performs its sensitive action (printing the
admin report) for every value of `is_admin`, including 0: its output is
identical for any two values of `is_admin` in both variants — there is no
authorization check before the sensitive action. -/
theorem C5_view_admin_report_no_authz (a b : Int) :
    Vuln.view_admin_report a = Vuln.view_admin_report b ∧
    Fixed.view_admin_report a = Fixed.view_admin_report b ∧
    Vuln.view_admin_report 0 = "Admin report: all user emails...\n" ∧
    Fixed.view_admin_report 0 = "Admin report: all user emails...\n" ∧
    Vuln.view_admin_report 0 ≠ "" :=
  ⟨rfl, rfl, rfl, rfl, by decide⟩

/-- C6: whenever the Reasoning Client fails with a timeout, authentication
failure, or rate limiting on every attempt (so the bounded retries are
exhausted), Stage 2's StageReport verdict is `indeterminate` — never
`pass` — and the orchestrator still produces a complete, well-formed
report carrying the results of the stages that completed. -/
theorem C6_stage2_indeterminate_on_failure (retries : Nat)
    (call : Nat → Except ReasoningServiceError (List Finding))
    (hfail : ∀ i, ∃ e, call i = Except.error e)
    (s1 s3 : StageReport) (h1 : s1.verdict ≠ Verdict.block) :
    (stage2Report retries call).verdict = Verdict.indeterminate ∧
    (stage2Report retries call).verdict ≠ Verdict.pass ∧
    (runPipeline s1 retries call s3).stage2.verdict = Verdict.indeterminate ∧
    (runPipeline s1 retries call s3).stage1 = s1 ∧
    (runPipeline s1 retries call s3).stage3 = s3 := by
  obtain ⟨e, he⟩ := attemptWithRetries_error call hfail retries
  have h2 : stage2Report retries call =
      { findings := [], verdict := Verdict.indeterminate } := by
    unfold stage2Report
    rw [he]
  have hrun : runPipeline s1 retries call s3 =
      { stage1 := s1, stage2 := { findings := [], verdict := Verdict.indeterminate },
        stage3 := s3, overall := Verdict.pass } := by
    simp only [runPipeline, h2]
    rw [if_neg h1, if_neg (by decide)]
  rw [h2, hrun]
  exact ⟨rfl, by decide, rfl, rfl, rfl⟩

/-- Witness for C6: a Reasoning Client that times out on every attempt,
with a passing Stage 1 report and a completed Stage 3 report. -/
theorem C6_stage2_indeterminate_on_failure_witness :
    (stage2Report 2 (fun _ => Except.error ReasoningServiceError.timeout)).verdict
        = Verdict.indeterminate ∧
    (runPipeline { findings := [], verdict := Verdict.pass } 2
        (fun _ => Except.error ReasoningServiceError.timeout)
        { findings := [], verdict := Verdict.pass }).stage1
      = { findings := [], verdict := Verdict.pass } := by
  have h := C6_stage2_indeterminate_on_failure 2
    (fun _ => Except.error ReasoningServiceError.timeout)
    (fun _ => ⟨ReasoningServiceError.timeout, rfl⟩)
    { findings := [], verdict := Verdict.pass }
    { findings := [], verdict := Verdict.pass } (by decide)
  exact ⟨h.1, h.2.2.2.1⟩

/-- C7: Stage 1 (rule matcher + classifier) is deterministic — two runs
over byte-identical snippet input with the identical rule set and
classifier model produce identical Findings, ordered by the
location-then-category sort. -/
theorem C7_stage1_deterministic (rules : List DetectionRule)
    (classify : Snippet → List (Nat × Int)) (tau_keep : Int)
    (snips1 snips2 : List Snippet) (h : snips1 = snips2) :
    stage1Findings rules classify tau_keep snips1 =
      stage1Findings rules classify tau_keep snips2 ∧
    List.Sorted locCatLE (stage1Findings rules classify tau_keep snips1) := by
  subst h
  refine ⟨rfl, ?_⟩
  unfold stage1Findings sortFindings
  exact List.sorted_insertionSort locCatLE _

/-- Witness for C7: one matching rule and one classifier category over a
one-snippet input, run twice. -/
theorem C7_stage1_deterministic_witness :
    stage1Findings
        [{ id := 7, category := 1, matcher := (fun _ => true), baseConfidence := 9 }]
        (fun _ => [(2, 8)]) 5 [{ line_start := 3, line_end := 4, text := [] }] =
      stage1Findings
        [{ id := 7, category := 1, matcher := (fun _ => true), baseConfidence := 9 }]
        (fun _ => [(2, 8)]) 5 [{ line_start := 3, line_end := 4, text := [] }] ∧
    List.Sorted locCatLE
      (stage1Findings
        [{ id := 7, category := 1, matcher := (fun _ => true), baseConfidence := 9 }]
        (fun _ => [(2, 8)]) 5 [{ line_start := 3, line_end := 4, text := [] }]) :=
  C7_stage1_deterministic _ _ 5 _ _ rfl

/-- C8: `safe_copy` postcondition — for `dst_size > 0` the destination ends
NUL-terminated at index `dst_size - 1` and holds a C string of length at
most `dst_size - 1`; when the source is strictly shorter than `dst_size`
the destination C string equals the source; and `dst_size = 0` returns
immediately, leaving `dst` unchanged.  Both variants. -/
theorem C8_safe_copy_spec (dst src : List Char) (dst_size : Nat)
    (hn : dst_size ≤ dst.length) :
    (dst_size = 0 → Vuln.safe_copy dst src dst_size = dst ∧
      Fixed.safe_copy dst src dst_size = dst) ∧
    (0 < dst_size →
      (Vuln.safe_copy dst src dst_size).getD (dst_size - 1) NUL = NUL ∧
      (cstr (Vuln.safe_copy dst src dst_size)).length ≤ dst_size - 1) ∧
    (0 < dst_size → NUL ∉ src → src.length < dst_size →
      cstr (Vuln.safe_copy dst src dst_size) = src ∧
      cstr (Fixed.safe_copy dst src dst_size) = src) := by
  refine ⟨?_, ?_, ?_⟩
  · intro h0
    subst h0
    exact ⟨by rw [Vuln.safe_copy, if_pos rfl], by rw [Fixed.safe_copy, if_pos rfl]⟩
  · intro h0
    exact ⟨safe_copy_getD_last dst src _ h0 hn,
      safe_copy_cstr_length dst src _ h0 hn⟩
  · intro h0 hnul hs
    refine ⟨safe_copy_cstr dst src _ h0 hn hs hnul, ?_⟩
    rw [fixed_safe_copy_eq]
    exact safe_copy_cstr dst src _ h0 hn hs hnul

/-- Witness for C8: an 8-byte buffer, the 3-character source abc. -/
theorem C8_safe_copy_spec_witness :
    (8 : Nat) ≤ (List.replicate 8 'x').length ∧
    cstr (Vuln.safe_copy (List.replicate 8 'x') ("abc").toList 8) =
      ("abc").toList ∧
    (Vuln.safe_copy (List.replicate 8 'x') ("abc").toList 8).getD 7 NUL = NUL := by
  have h := C8_safe_copy_spec (List.replicate 8 'x') ("abc").toList 8
    (by rw [List.length_replicate])
  exact ⟨by rw [List.length_replicate],
    (h.2.2 (by omega) (by decide) (by decide)).1,
    (h.2.1 (by omega)).1⟩

/-- C9: `compute_score` never returns a negative value: for all integer
inputs, with int arithmetic wrapping modulo 2^32, the score is clamped to
0 from below before returning, in both variants. -/
theorem C9_compute_score_nonneg (a b : Int) :
    0 ≤ Vuln.compute_score a b ∧ 0 ≤ Fixed.compute_score a b := by
  constructor
  · simp only [Vuln.compute_score]
    split <;> omega
  · simp only [Fixed.compute_score]
    split <;> omega

/-- C10: the Stage-1-fixed variant preserves the business-logic flaws of
the vulnerable variant unchanged — `apply_coupon_after_checkout` and
`view_admin_report` are extensionally equal across the two variants. -/
theorem C10_business_logic_preserved :
    (∀ paid coupon_applied : Int,
      Fixed.apply_coupon_after_checkout paid coupon_applied =
        Vuln.apply_coupon_after_checkout paid coupon_applied) ∧
    (∀ is_admin : Int,
      Fixed.view_admin_report is_admin = Vuln.view_admin_report is_admin) :=
  ⟨fun _ _ => rfl, fun _ => rfl⟩
